import Mathlib

/-!
Shallow embedding of the Corbacktoz/doctobot appointment-monitoring scripts
(src/ap.py and src/app.py) and verification of the frozen claims.

Modelling conventions, stated once:
* All timestamps live in the single regional timezone (Europe/Paris), so
  `pytz` localization and `astimezone(TZ)` are the identity and timestamps are
  plain wall-clock records (`PyDateTime`).
* Python `datetime` comparison between two aware datetimes of the same zone is
  lexicographic on (year, month, day, hour, minute, second); we realize it by
  the strictly monotone linearization `PyDateTime.lin`.
* `re.IGNORECASE` is modelled by matching on the `reFold`-folded text:
  CPython's case-insensitive matching compares simple-lowercased code points
  together with a fixed table of extra equivalences (dotless ı U+0131 and
  dotted İ U+0130 match `i`, long s U+017F matches `s`, the Kelvin sign
  matches `k`, ...); `reFold` canonicalizes the fragment of that relation
  relevant to the source's patterns. Python's `str.lower()` — used by app.py's
  `in`-text guards — is modelled separately by `pyLower`, because the two
  disagree on exactly the characters that make app.py's group-less keyword
  patterns reachable (see C7). Captured fragments are taken from the folded
  text; on text where folding and lowercasing agree (all ASCII/Latin-1 text)
  this is observationally equivalent to the source, whose fragments are
  lowercased by `fr_to_en_date` before any further use.
* Python exceptions that the source can actually raise past a handler are made
  explicit with `Except PyErr`; exceptions swallowed by a `try/except` around
  the raising expression are `Option`/skip results.
* The Playwright layer (page rendering) is out of scope per the spec; the
  extractor is modelled on the list of raw cards the page layer yields.
-/

deriving instance DecidableEq for Except

/-- A timezone-aware Python datetime, modelled as regional wall-clock fields. -/
structure PyDateTime where
  year : Nat
  month : Nat
  day : Nat
  hour : Nat
  minute : Nat
  second : Nat
deriving DecidableEq, Repr

/-- Strictly monotone linearization of a datetime; comparing two in-range
datetimes via `lin` agrees with Python aware-datetime comparison. -/
def PyDateTime.lin (d : PyDateTime) : Nat :=
  ((((d.year * 13 + d.month) * 32 + d.day) * 24 + d.hour) * 60 + d.minute) * 60 + d.second

/-- Python `dt1 <= dt2` for same-zone aware datetimes. -/
def dtLe (a b : PyDateTime) : Bool := a.lin ≤ b.lin

/-- Gregorian leap-year test (as used by Python's calendar). -/
def isLeapYear (y : Nat) : Bool := (y % 4 == 0 && y % 100 != 0) || y % 400 == 0

/-- Days in a month of the proleptic Gregorian calendar. -/
def daysInMonth (y m : Nat) : Nat :=
  if m = 2 then (if isLeapYear y then 29 else 28)
  else if m = 4 ∨ m = 6 ∨ m = 9 ∨ m = 11 then 30 else 31

/-- Advance a datetime by one calendar day, keeping the time of day. -/
def nextDay (d : PyDateTime) : PyDateTime :=
  if d.day < daysInMonth d.year d.month then { d with day := d.day + 1 }
  else if d.month < 12 then { d with month := d.month + 1, day := 1 }
  else { d with year := d.year + 1, month := 1, day := 1 }

/-- Python `dt + timedelta(days=n)` (n ≥ 0), keeping the time of day. -/
def addDays : Nat → PyDateTime → PyDateTime
  | 0, d => d
  | n + 1, d => addDays n (nextDay d)

/-- ASCII lowercasing of one character (model of `str.lower`). -/
def lowerChar (c : Char) : Char :=
  if 'A' ≤ c ∧ c ≤ 'Z' then Char.ofNat (c.toNat + 32) else c

/-- ASCII uppercasing of one character. -/
def upperChar (c : Char) : Char :=
  if 'a' ≤ c ∧ c ≤ 'z' then Char.ofNat (c.toNat - 32) else c

/-- Python `str.lower()` on one character (full Unicode lowercase for the
range relevant here): ASCII `A-Z`, the Latin-1 uppercase letters, and the
special case LATIN CAPITAL LETTER I WITH DOT ABOVE (U+0130), which lowercases
to the two characters `i` + COMBINING DOT ABOVE (U+0307); every other
character is left unchanged (in particular dotless ı U+0131, which is already
lowercase). -/
def pyLowerChar (c : Char) : List Char :=
  if 'A' ≤ c ∧ c ≤ 'Z' then [Char.ofNat (c.toNat + 32)]
  else if c.toNat = 0x130 then ['i', Char.ofNat 0x307]
  else if 0xC0 ≤ c.toNat ∧ c.toNat ≤ 0xDE ∧ c.toNat ≠ 0xD7 then [Char.ofNat (c.toNat + 32)]
  else [c]

/-- Model of `str.lower` on the character list of a Python string. -/
def pyLower (cs : List Char) : List Char := cs.flatMap pyLowerChar

/-- The per-character folding performed by CPython's `re.IGNORECASE` when
matching a lowercase pattern literal: the Unicode *simple* (one-to-one)
lowercase mapping (under which İ U+0130 maps to plain `i`, unlike
`str.lower`), composed with the `re` module's extra equivalence classes
(dotless ı U+0131 matches `i`, long s U+017F matches `s`, the Kelvin sign
U+212A matches `k`), each class canonicalized to its ASCII member. Restricted
to ASCII and Latin-1, where it coincides with lowercasing. -/
def reFold (c : Char) : Char :=
  if 'A' ≤ c ∧ c ≤ 'Z' then Char.ofNat (c.toNat + 32)
  else if c.toNat = 0x130 ∨ c.toNat = 0x131 then 'i'
  else if c.toNat = 0x17F then 's'
  else if c.toNat = 0x212A then 'k'
  else if 0xC0 ≤ c.toNat ∧ c.toNat ≤ 0xDE ∧ c.toNat ≠ 0xD7 then Char.ofNat (c.toNat + 32)
  else c

/-- The view of a text that `re.search(pat, text, re.IGNORECASE)` matches a
lowercase pattern against. -/
def reFoldText (cs : List Char) : List Char := cs.map reFold

/-- Regex class `[0-9]`. -/
def isDigitChar (c : Char) : Bool := '0' ≤ c && c ≤ '9'

/-- Regex class `\s` (ASCII whitespace as in Python's `[ \t\n\r\f\v]`). -/
def isSpaceChar (c : Char) : Bool :=
  c = ' ' || c = '\t' || c = '\n' || c = '\r' || c = '\x0b' || c = '\x0c'

/-- Regex class `\w`: ASCII alphanumerics, underscore, and (as an
approximation of Unicode word characters such as accented letters) every
character above U+007F. -/
def isWordChar (c : Char) : Bool := c.isAlphanum || c = '_' || decide (c.toNat > 127)

/-- Model of Python `str.strip()` (ASCII whitespace). -/
def pyStrip (cs : List Char) : List Char :=
  ((cs.dropWhile isSpaceChar).reverse.dropWhile isSpaceChar).reverse

/-- Model of `.replace("\n", " ")` as applied to card container text. -/
def replaceNl (cs : List Char) : List Char :=
  cs.map fun c => if c = '\n' then ' ' else c

/-- A sub-pattern matcher: at the current position, either fail or return the
consumed characters together with the rest of the input. The concrete patterns
below are compiled from the regex literals of the source; greedy `\s+`/`\w+`
runs are taken maximally, which coincides with Python's backtracking semantics
for these particular patterns (a shorter run would always place a
non-matching character under the follower). -/
def ReM : Type := List Char → Option (List Char × List Char)

/-- A literal (already lowercased) regex fragment. -/
def mLit (lit : List Char) : ReM := fun cs =>
  if lit.isPrefixOf cs then some (lit, cs.drop lit.length) else none

/-- `p+` for a character class `p`, taken greedily. -/
def mClass1 (p : Char → Bool) : ReM := fun cs =>
  let run := cs.takeWhile p
  if run.isEmpty then none else some (run, cs.dropWhile p)

/-- `p*` for a character class `p`, taken greedily. -/
def mMany0 (p : Char → Bool) : ReM := fun cs => some (cs.takeWhile p, cs.dropWhile p)

/-- `p{n}` for a character class `p`. -/
def mExactN (n : Nat) (p : Char → Bool) : ReM := fun cs =>
  let run := cs.take n
  if run.length = n ∧ run.all p then some (run, cs.drop n) else none

/-- Sequencing of two fragments. -/
def mSeq (a b : ReM) : ReM := fun cs =>
  (a cs).bind fun r1 => (b r1.2).map fun r2 => (r1.1 ++ r2.1, r2.2)

/-- Ordered alternation (first alternative preferred, as in Python `|`). -/
def mAlt (a b : ReM) : ReM := fun cs => (a cs).orElse fun _ => b cs

/-- The empty fragment. -/
def mEps : ReM := fun cs => some ([], cs)

/-- `a?` (greedy option). -/
def mOpt (a : ReM) : ReM := mAlt a mEps

/-- A regex match result: the matched text and the text of capture group 1,
when the pattern has such a group (`none` models a group-less pattern, where
`m.group(1)` raises `IndexError`). -/
structure ReMatch where
  matched : List Char
  group1 : Option (List Char)
deriving DecidableEq, Repr

/-- `re.search`: try the pattern at each position, leftmost match wins. -/
def reSearch (p : List Char → Option ReMatch) : List Char → Option ReMatch
  | [] => p []
  | c :: t =>
    match p (c :: t) with
    | some m => some m
    | none => reSearch p t

/-- Python's substring test `needle in hay`. -/
def containsSub (needle : List Char) : List Char → Bool
  | [] => needle.isPrefixOf []
  | c :: t => needle.isPrefixOf (c :: t) || containsSub needle t

/-- `\b` after an occurrence: the next character, if any, is not a word
character (the needles used below end in a word character). -/
def wordBoundaryAfter (needle cs : List Char) : Bool :=
  match cs.drop needle.length with
  | [] => true
  | c :: _ => !isWordChar c

/-- Scanner for `\bneedle\b` given whether the previous character was a word
character (the needles used below begin and end in word characters). -/
def hasWordOccGo (needle : List Char) : Bool → List Char → Bool
  | _, [] => false
  | prevW, c :: t =>
    (!prevW && needle.isPrefixOf (c :: t) && wordBoundaryAfter needle (c :: t))
      || hasWordOccGo needle (isWordChar c) t

/-- `re.search(r"\bneedle\b", text)` as a Boolean occurrence test. -/
def hasWordOcc (needle cs : List Char) : Bool := hasWordOccGo needle false cs

/-- One `re.sub(rf"\b{fr}\b", en, t)` pass (the month needles begin and end in
word characters, so both boundaries reduce to "neighbour is not a word
character"); `prevW` tracks whether the previous original character was a word
character; after a replacement the previous original character is the last
character of `fr`, a word character. The `fuel` argument only makes the
recursion structural; it is always at least the length of the text, and each
step consumes at least one character. -/
def subWordGo (fr en : List Char) : Nat → Bool → List Char → List Char
  | 0, _, _ => []
  | _, _, [] => []
  | fuel + 1, prevW, c :: t =>
    if fr ≠ [] ∧ fr.isPrefixOf (c :: t) = true ∧ prevW = false ∧
        wordBoundaryAfter fr (c :: t) = true then
      en ++ subWordGo fr en fuel true ((c :: t).drop fr.length)
    else
      c :: subWordGo fr en fuel (isWordChar c) t

/-- `fr_to_en_date` (both variants): lowercase, then substitute each
French month name by its English name, in table order. -/
def fr_to_en_list (table : List (List Char × List Char)) (s : List Char) : List Char :=
  table.foldl (fun t p => subWordGo p.1 p.2 t.length false t) (pyLower s)

/-- `MONTHS_FR` of src/ap.py (15 entries, both accented and plain variants of
février/août/décembre). -/
def monthsFrAp : List (List Char × List Char) :=
  [ ("janvier".toList, "January".toList), ("février".toList, "February".toList),
    ("fevrier".toList, "February".toList), ("mars".toList, "March".toList),
    ("avril".toList, "April".toList), ("mai".toList, "May".toList),
    ("juin".toList, "June".toList), ("juillet".toList, "July".toList),
    ("août".toList, "August".toList), ("aout".toList, "August".toList),
    ("septembre".toList, "September".toList), ("octobre".toList, "October".toList),
    ("novembre".toList, "November".toList), ("décembre".toList, "December".toList),
    ("decembre".toList, "December".toList) ]

/-- The month table of src/app.py's `fr_to_en_date` (14 entries: it lacks the
unaccented "decembre" that ap.py has). -/
def monthsFrApp : List (List Char × List Char) :=
  [ ("janvier".toList, "January".toList), ("février".toList, "February".toList),
    ("fevrier".toList, "February".toList), ("mars".toList, "March".toList),
    ("avril".toList, "April".toList), ("mai".toList, "May".toList),
    ("juin".toList, "June".toList), ("juillet".toList, "July".toList),
    ("août".toList, "August".toList), ("aout".toList, "August".toList),
    ("septembre".toList, "September".toList), ("octobre".toList, "October".toList),
    ("novembre".toList, "November".toList), ("décembre".toList, "December".toList) ]

/-- Whitespace tokenization of a date fragment (Python `str.split`-like).
The `fuel` argument only makes the recursion structural; it is always at least
the length of the text, and each step consumes at least one character. -/
def splitTokensGo : Nat → List Char → List (List Char)
  | 0, _ => []
  | _, [] => []
  | fuel + 1, c :: t =>
    if isSpaceChar c then splitTokensGo fuel t
    else (c :: t.takeWhile fun x => !isSpaceChar x)
        :: splitTokensGo fuel (t.dropWhile fun x => !isSpaceChar x)

/-- Whitespace tokenization of a date fragment. -/
def splitTokens (cs : List Char) : List (List Char) := splitTokensGo cs.length cs

/-- English month names (and the abbreviations dateutil accepts) relevant to
the fragments `fr_to_en_date` can produce. -/
def enMonthNames : List (List Char × Nat) :=
  [ ("january".toList, 1), ("jan".toList, 1), ("february".toList, 2), ("feb".toList, 2),
    ("march".toList, 3), ("mar".toList, 3), ("april".toList, 4), ("apr".toList, 4),
    ("may".toList, 5), ("june".toList, 6), ("jun".toList, 6), ("july".toList, 7),
    ("jul".toList, 7), ("august".toList, 8), ("aug".toList, 8),
    ("september".toList, 9), ("sept".toList, 9), ("sep".toList, 9),
    ("october".toList, 10), ("oct".toList, 10), ("november".toList, 11),
    ("nov".toList, 11), ("december".toList, 12), ("dec".toList, 12) ]

/-- Case-insensitive month-name lookup. -/
def monthOfToken (tok : List Char) : Option Nat :=
  (enMonthNames.find? fun p => p.1 == pyLower tok).map (·.2)

/-- Numeric value of a digit string. -/
def natOfDigits (ds : List Char) : Nat :=
  ds.foldl (fun n c => n * 10 + (c.toNat - 48)) 0

/-- Model of `dateutil.parser.parse(frag, dayfirst=True, default=dflt)` for the
fragment shapes `<day> <month-name>` and `<day> <month-name> <year4>` that the
source regexes produce; any other shape is modelled as a parse failure
(dateutil raising), which every caller catches locally. Components missing
from the fragment (the year, and the time of day) are taken from `dflt`,
exactly dateutil's default-substitution rule. -/
def dpParse (frag : List Char) (dflt : PyDateTime) : Option PyDateTime :=
  match splitTokens frag with
  | [d, m] =>
    match monthOfToken m with
    | none => none
    | some mo =>
      if d ≠ [] ∧ d.all isDigitChar ∧ 1 ≤ natOfDigits d ∧
          natOfDigits d ≤ daysInMonth dflt.year mo then
        some ⟨dflt.year, mo, natOfDigits d, dflt.hour, dflt.minute, dflt.second⟩
      else none
  | [d, m, y] =>
    match monthOfToken m with
    | none => none
    | some mo =>
      if d ≠ [] ∧ d.all isDigitChar ∧ y ≠ [] ∧ y.all isDigitChar ∧ 1 ≤ natOfDigits y ∧
          1 ≤ natOfDigits d ∧ natOfDigits d ≤ daysInMonth (natOfDigits y) mo then
        some ⟨natOfDigits y, mo, natOfDigits d, dflt.hour, dflt.minute, dflt.second⟩
      else none
  | _ => none

/-- The group fragment `[0-9]{1,2}\s+\w+` (greedy 2-digit day tried first,
backtracking to 1 digit, as Python does). -/
def grpDM : ReM :=
  mAlt (mSeq (mExactN 2 isDigitChar) (mSeq (mClass1 isSpaceChar) (mClass1 isWordChar)))
       (mSeq (mExactN 1 isDigitChar) (mSeq (mClass1 isSpaceChar) (mClass1 isWordChar)))

/-- The group fragment `[0-9]{1,2}\s+\w+\s+[0-9]{4}`. -/
def grpDMY : ReM :=
  mAlt (mSeq (mExactN 2 isDigitChar)
         (mSeq (mClass1 isSpaceChar)
           (mSeq (mClass1 isWordChar) (mSeq (mClass1 isSpaceChar) (mExactN 4 isDigitChar)))))
       (mSeq (mExactN 1 isDigitChar)
         (mSeq (mClass1 isSpaceChar)
           (mSeq (mClass1 isWordChar) (mSeq (mClass1 isSpaceChar) (mExactN 4 isDigitChar)))))

/-- The group fragment `[0-9]{1,2}\s+\w+(?:\s+[0-9]{4})?`. -/
def grpDMoptY : ReM :=
  mSeq grpDM (mOpt (mSeq (mClass1 isSpaceChar) (mExactN 4 isDigitChar)))

/-- `(?:le)?` (text already lowercased). -/
def optLe : ReM := mOpt (mLit "le".toList)

/-- `(?:\s+RDV| rendez-vous)?` (text already lowercased). -/
def optRdv : ReM :=
  mOpt (mAlt (mSeq (mClass1 isSpaceChar) (mLit "rdv".toList)) (mLit " rendez-vous".toList))

/-- The non-captured prefix `Prochain(?:\s+RDV| rendez-vous)?\s*(?:le)?\s*` of
ap.py's first two `DATE_PATTERNS`. -/
def apProchainPre : ReM :=
  mSeq (mLit "prochain".toList)
    (mSeq optRdv (mSeq (mMany0 isSpaceChar) (mSeq optLe (mMany0 isSpaceChar))))

/-- `[ée]` (one character of the class). -/
def eAcc : ReM := fun cs =>
  match cs with
  | c :: t => if c = 'é' ∨ c = 'e' then some ([c], t) else none
  | [] => none

/-- The non-captured prefix `Disponibilit[ée]s?\s*(?:le)?\s*` of ap.py's third
`DATE_PATTERNS` entry. -/
def apDispoPre : ReM :=
  mSeq (mLit "disponibilit".toList)
    (mSeq eAcc
      (mSeq (mOpt (mLit ['s']))
        (mSeq (mMany0 isSpaceChar) (mSeq optLe (mMany0 isSpaceChar)))))

/-- A pattern consisting of a non-captured prefix followed by capture group 1. -/
def patAt (pre grp : ReM) : List Char → Option ReMatch := fun cs =>
  (pre cs).bind fun pr => (grp pr.2).map fun g => ⟨pr.1 ++ g.1, some g.1⟩

/-- A group-less literal pattern (its `m.group(1)` raises `IndexError`). -/
def litPatAt (lit : List Char) : List Char → Option ReMatch := fun cs =>
  (mLit lit cs).map fun pr => ⟨pr.1, none⟩

/-- ap.py `DATE_PATTERNS[0]`. -/
def apPat1At : List Char → Option ReMatch := patAt apProchainPre grpDMY

/-- ap.py `DATE_PATTERNS[1]`. -/
def apPat2At : List Char → Option ReMatch := patAt apProchainPre grpDM

/-- ap.py `DATE_PATTERNS[2]`. -/
def apPat3At : List Char → Option ReMatch := patAt apDispoPre grpDMoptY

/-- app.py pattern `([0-9]{1,2}\s+\w+\s+[0-9]{4})`. -/
def appPat1At : List Char → Option ReMatch := patAt mEps grpDMY

/-- app.py pattern `([0-9]{1,2}\s+\w+)`. -/
def appPat2At : List Char → Option ReMatch := patAt mEps grpDM

/-- The exception a Python expression in the modelled code can raise past the
local handlers: `m.group(1)` on a group-less match (`IndexError`). -/
inductive PyErr
  | indexError
deriving DecidableEq, Repr

/-- `m.group(1)`: the captured text, or `IndexError` if the pattern had no
capture group. -/
def getGroup1 (m : ReMatch) : Except PyErr (List Char) :=
  match m.group1 with
  | some g => Except.ok g
  | none => Except.error PyErr.indexError

/-- The apostrophe character (U+0027). -/
def aposChar : Char := Char.ofNat 39

/-- The keyword `aujourd'hui` as a character list. -/
def aujLit : List Char := "aujourd".toList ++ [aposChar] ++ "hui".toList

/-- The keyword `demain` as a character list. -/
def demainLit : List Char := "demain".toList

/-- ap.py line 41's `default=TZ.localize(datetime.now()).replace(month=1, day=1)`:
January 1st of the current year, keeping the current time of day. -/
def apDefault (now : PyDateTime) : PyDateTime := { now with month := 1, day := 1 }

/-- dateutil's implicit default when `parse` is given none (app.py line 45):
today's date with a zero time of day. -/
def appDefault (now : PyDateTime) : PyDateTime := { now with hour := 0, minute := 0, second := 0 }

/-- One iteration of ap.py's `for pat in DATE_PATTERNS` loop: search the
pattern; on a structural match take `m.group(1).strip()` (the group access is
outside the `try`, so a missing group would propagate), translate months and
parse with dateutil under the ap default; a dateutil failure is caught and
falls through (`continue`) to the continuation `k`. -/
def apTryPat (patAtF : List Char → Option ReMatch) (lower : List Char) (dflt : PyDateTime)
    (k : Except PyErr (Option PyDateTime)) : Except PyErr (Option PyDateTime) :=
  match reSearch patAtF lower with
  | none => k
  | some m =>
    match getGroup1 m with
    | Except.error e => Except.error e
    | Except.ok raw =>
      match dpParse (fr_to_en_list monthsFrAp (pyStrip raw)) dflt with
      | some dt => Except.ok (some dt)
      | none => k

/-- ap.py lines 47-52: after all patterns fail, the `\baujourd'hui\b` and
`\bdemain\b` keyword fallbacks, else `None`. -/
def apKeywords (lower : List Char) (now : PyDateTime) : Except PyErr (Option PyDateTime) :=
  if hasWordOcc aujLit lower then Except.ok (some now)
  else if hasWordOcc demainLit lower then Except.ok (some (addDays 1 now))
  else Except.ok none

/-- `parse_date_fr` of src/ap.py (lines 33-52). `now` is the ambient
`datetime.now()` in the regional timezone. All of ap.py's searches are
case-insensitive regex searches, so they run on the folded text. -/
def parse_date_fr_ap (text : String) (now : PyDateTime) : Except PyErr (Option PyDateTime) :=
  let folded := reFoldText text.toList
  apTryPat apPat1At folded (apDefault now)
    (apTryPat apPat2At folded (apDefault now)
      (apTryPat apPat3At folded (apDefault now)
        (apKeywords folded now)))

/-- One iteration of app.py's loop for a numeric pattern (the `"aujourd" in
pat` / `"demain" in pat` guards are `False` for these patterns): search, take
`m.group(1)` (no strip), translate months with app.py's table and parse with
dateutil's implicit default; a parse failure falls through to `k`. -/
def appTryPat (patAtF : List Char → Option ReMatch) (lower : List Char) (now : PyDateTime)
    (k : Except PyErr (Option PyDateTime)) : Except PyErr (Option PyDateTime) :=
  match reSearch patAtF lower with
  | none => k
  | some m =>
    match getGroup1 m with
    | Except.error e => Except.error e
    | Except.ok raw =>
      match dpParse (fr_to_en_list monthsFrApp raw) (appDefault now) with
      | some dt => Except.ok (some dt)
      | none => k

/-- One iteration of app.py's loop for a keyword pattern (`"aujourd'hui"` or
`"demain"`): the guard `keyword-in-pat and keyword-in-text` tests the
`str.lower()`-ed text (`lowered`) and returns `result` directly; otherwise the
group-less literal is regex-searched with `re.IGNORECASE`, i.e. against the
`folded` text, and a match reaches `m.group(1)`, raising `IndexError`
(line 42 is outside any handler). Because folding and lowercasing disagree on
characters such as dotless ı, the search *can* succeed while the guard
failed — the raising path is genuinely reachable (see C7). `guard` is the
substring tested against the text (`"aujourd"` / `"demain"`). -/
def appKeywordIter (guard lit : List Char) (result : PyDateTime) (lowered folded : List Char)
    (now : PyDateTime) (k : Except PyErr (Option PyDateTime)) : Except PyErr (Option PyDateTime) :=
  if containsSub guard lowered then Except.ok (some result)
  else
    match reSearch (litPatAt lit) folded with
    | some m =>
      match getGroup1 m with
      | Except.error e => Except.error e
      | Except.ok raw =>
        match dpParse (fr_to_en_list monthsFrApp raw) (appDefault now) with
        | some dt => Except.ok (some dt)
        | none => k
    | none => k

/-- `parse_date_fr` of src/app.py (lines 30-51), the four loop iterations
unrolled in pattern order: the regex searches run on the folded text, the
`in`-guards on the `str.lower()`-ed text, exactly as in the source. -/
def parse_date_fr_app (text : String) (now : PyDateTime) : Except PyErr (Option PyDateTime) :=
  let lowered := pyLower text.toList
  let folded := reFoldText text.toList
  appTryPat appPat1At folded now
    (appTryPat appPat2At folded now
      (appKeywordIter "aujourd".toList aujLit now lowered folded now
        (appKeywordIter demainLit demainLit (addDays 1 now) lowered folded now
          (Except.ok none))))

/-- A raw listing card as supplied by the page layer: the link's display text,
its `href` attribute (`None` possible), and the surrounding card container
text. -/
structure RawCard where
  nameText : String
  href : Option String
  cardText : String
deriving DecidableEq, Repr

/-- An availability record of src/ap.py: the dict
`{"name": ..., "date": ..., "url": ...}`. -/
structure ApItem where
  name : String
  date : PyDateTime
  url : String
deriving DecidableEq, Repr

/-- An availability record of src/app.py: the dict
`{"source": ..., "name": ..., "date": ..., "url": ...}`. -/
structure AppItem where
  source : String
  name : String
  date : PyDateTime
  url : String
deriving DecidableEq, Repr

/-- Python `str.startswith` on model strings. -/
def pyStartsWith (p s : String) : Bool := p.toList.isPrefixOf s.toList

/-- `WINDOW_DAYS` of src/ap.py. -/
def WINDOW_DAYS : Nat := 14

/-- The per-card, `seen`-independent body of ap.py's extraction loop
(lines 80-95): strip the display text, default the href, skip when either is
empty, parse the card text (the surrounding `try/except` turns a raised
exception into a skip), keep the record only when the date lies in
`[now, now + WINDOW_DAYS days]`, and resolve a relative href against the
Doctolib origin. -/
def apCardKeep (now : PyDateTime) (c : RawCard) : Option ApItem :=
  let name := String.mk (pyStrip c.nameText.toList)
  let href := c.href.getD ""
  if name = "" ∨ href = "" then none
  else
    match parse_date_fr_ap (String.mk (replaceNl c.cardText.toList)) now with
    | Except.error _ => none
    | Except.ok none => none
    | Except.ok (some dt) =>
      if dtLe now dt && dtLe dt (addDays WINDOW_DAYS now) then
        some ⟨name, dt, if pyStartsWith "/" href then "https://www.doctolib.fr" ++ href else href⟩
      else none

/-- The per-card body of app.py's extraction loops (lines 71-80 and 100-109):
same as ap.py's but with app.py's parser, a caller-supplied window and base
origin, a source tag — and no skip of empty display text or href. -/
def appCardKeep (srcTag base : String) (window : Nat) (now : PyDateTime) (c : RawCard) :
    Option AppItem :=
  let name := String.mk (pyStrip c.nameText.toList)
  let href := c.href.getD ""
  match parse_date_fr_app (String.mk (replaceNl c.cardText.toList)) now with
  | Except.error _ => none
  | Except.ok none => none
  | Except.ok (some dt) =>
    if dtLe now dt && dtLe dt (addDays window now) then
      some ⟨srcTag, name, dt, if pyStartsWith "/" href then base ++ href else href⟩
    else none

/-- The shared shape of all three extraction loops: fold over the cards,
skipping cards the per-card body rejects and cards whose `(name, url)` key is
already in the `seen` set; an accepted card's key is added to `seen` and the
record is appended. -/
def fetchGo {α : Type} (keep : RawCard → Option α) (key : α → String × String) :
    List RawCard → Finset (String × String) → List α
  | [], _ => []
  | c :: cs, seen =>
    match keep c with
    | none => fetchGo keep key cs seen
    | some it =>
      if key it ∈ seen then fetchGo keep key cs seen
      else it :: fetchGo keep key cs (insert (key it) seen)

/-- The extractor's dedup key `(name, url)` for ap.py records. -/
def apKey (it : ApItem) : String × String := (it.name, it.url)

/-- The extractor's dedup key `(name, url)` for app.py records. -/
def appKey (it : AppItem) : String × String := (it.name, it.url)

/-- Ascending-date comparison used by `out.sort(key=lambda x: x["date"])` and
`items.sort(key=lambda x: x["date"])`. -/
def apItemLe (a b : ApItem) : Prop := a.date.lin ≤ b.date.lin

instance : DecidableRel apItemLe := fun a b => inferInstanceAs (Decidable (a.date.lin ≤ b.date.lin))

/-- Ascending-date comparison for app.py records. -/
def appItemLe (a b : AppItem) : Prop := a.date.lin ≤ b.date.lin

instance : DecidableRel appItemLe := fun a b => inferInstanceAs (Decidable (a.date.lin ≤ b.date.lin))

/-- `fetch_derm_in_14_days` of src/ap.py (lines 54-100), on the raw cards the
page layer yields: the card loop followed by the final ascending-date sort.
Python's `list.sort` is a stable sort; it is modelled by `insertionSort`,
which agrees with it on the sorted order — no claim below depends on the
relative order of distinct records with equal dates. -/
def fetch_derm_in_14_days (now : PyDateTime) (cards : List RawCard) : List ApItem :=
  List.insertionSort apItemLe (fetchGo (apCardKeep now) apKey cards ∅)

/-- `fetch_doctolib` of src/app.py (lines 54-84): the card loop, unsorted. -/
def fetch_doctolib (window : Nat) (now : PyDateTime) (cards : List RawCard) : List AppItem :=
  fetchGo (appCardKeep "Doctolib" "https://www.doctolib.fr" window now) appKey cards ∅

/-- `fetch_maiia` of src/app.py (lines 87-113): the card loop, unsorted. -/
def fetch_maiia (window : Nat) (now : PyDateTime) (cards : List RawCard) : List AppItem :=
  fetchGo (appCardKeep "Maiia" "https://www.maiia.com" window now) appKey cards ∅

/-- Modelled from the spec (§4.2, §8): "Deduplicates by `(providerName, url)`,
first occurrence wins" — keep the first element carrying each key, discard
later ones entirely. Stated separately from `fetchGo` so that the claim that
the extraction loop implements exactly this policy on the surviving records
is a real refinement. -/
def dedupByKeyFirst {α : Type} (key : α → String × String) :
    List α → Finset (String × String) → List α
  | [], _ => []
  | x :: t, seen =>
    if key x ∈ seen then dedupByKeyFirst key t seen
    else x :: dedupByKeyFirst key t (insert (key x) seen)

/-- A canonical comparison key of src/ap.py's `canonicalize`: the dict
`{"name": ..., "url": ..., "day": "YYYY-MM-DD"}`. -/
structure CKey where
  name : String
  url : String
  day : String
deriving DecidableEq, Repr

/-- Zero-padded two-digit field (`%m`, `%d`, `%H`, `%M`). -/
def pad2 (n : Nat) : String := if n < 10 then "0" ++ toString n else toString n

/-- Zero-padded four-digit year (`%Y`). -/
def pad4 (n : Nat) : String :=
  if n < 10 then "000" ++ toString n
  else if n < 100 then "00" ++ toString n
  else if n < 1000 then "0" ++ toString n
  else toString n

/-- `d.strftime("%Y-%m-%d")`. -/
def formatDay (d : PyDateTime) : String := pad4 d.year ++ "-" ++ pad2 d.month ++ "-" ++ pad2 d.day

/-- Lexicographic strict comparison of character lists by code point —
exactly Python's `str` comparison. -/
def listLt : List Char → List Char → Bool
  | _, [] => false
  | [], _ :: _ => true
  | a :: s, b :: t => decide (a.toNat < b.toNat) || (a = b && listLt s t)

/-- Python `s1 < s2` on strings. -/
def strLt (a b : String) : Prop := listLt a.toList b.toList = true

/-- Python `s1 <= s2` on strings. -/
def strLe (a b : String) : Prop := strLt a b ∨ a = b

instance : DecidableRel strLt := fun a b => inferInstanceAs (Decidable (_ = true))

instance : DecidableRel strLe := fun a b => inferInstanceAs (Decidable (_ ∨ _ = _))

/-- The sort order of `canonicalize`: Python's tuple comparison on
`(day, name, url)` under string ordering. -/
def ckeyLe (a b : CKey) : Prop :=
  strLt a.day b.day ∨ (a.day = b.day ∧ (strLt a.name b.name ∨ (a.name = b.name ∧ strLe a.url b.url)))

instance : DecidableRel ckeyLe := fun a b =>
  inferInstanceAs (Decidable (strLt a.day b.day ∨ (a.day = b.day ∧ (strLt a.name b.name ∨ (a.name = b.name ∧ strLe a.url b.url)))))

/-- `canonicalize` of src/ap.py (lines 114-124): keep only
`(name, url, day)` with `day` the region-local calendar date of the record's
timestamp (`astimezone(TZ)` is the identity here, see the header note), then
`sorted(..., key=lambda x: (x["day"], x["name"], x["url"]))`. No
deduplication is performed by the source. Python's stable sort is modelled by
`insertionSort`; records tying on the sort key are entirely equal, so tie
order cannot be observed. -/
def canonicalize (items : List ApItem) : List CKey :=
  List.insertionSort ckeyLe (items.map fun it => ⟨it.name, it.url, formatDay it.date⟩)

/-- The tuple `(i["name"], i["url"], i["day"])` built by `compute_diff`. -/
def keyTuple (k : CKey) : String × String × String := (k.name, k.url, k.day)

/-- `compute_diff` of src/ap.py (lines 126-131): Python set difference in both
directions on the `(name, url, day)` tuples. -/
def compute_diff (old nw : List CKey) :
    Finset (String × String × String) × Finset (String × String × String) :=
  let oldSet := (old.map keyTuple).toFinset
  let newSet := (nw.map keyTuple).toFinset
  (newSet \ oldSet, oldSet \ newSet)

/-- Sakamoto's day-of-week algorithm (0 = Sunday), matching `strftime("%a")`
on the proleptic Gregorian calendar. -/
def dayOfWeek (y m d : Nat) : Nat :=
  let t := [0, 3, 2, 5, 0, 3, 5, 1, 4, 6, 2, 4]
  let y2 := if m < 3 then y - 1 else y
  (y2 + y2 / 4 - y2 / 100 + y2 / 400 + t.getD (m - 1) 0 + d) % 7

/-- `strftime("%a")` under the default C locale. -/
def weekdayAbbrev (dt : PyDateTime) : String :=
  ["Sun", "Mon", "Tue", "Wed", "Thu", "Fri", "Sat"].getD (dayOfWeek dt.year dt.month dt.day) ""

/-- Python `str.capitalize()`: first character uppercased, the rest lowercased
(ASCII). -/
def pyCapitalize (s : String) : String :=
  match s.toList with
  | [] => ""
  | c :: t => String.mk (upperChar c :: t.map lowerChar)

/-- Python `sep.join(strs)`. -/
def joinSep (sep : String) : List String → String
  | [] => ""
  | [x] => x
  | x :: xs => x ++ sep ++ joinSep sep xs

/-- `fmt` of src/ap.py (lines 145-152): a fixed header line followed by one
bullet line per record; no special case for an empty list. -/
def fmt_ap (items : List ApItem) : String :=
  joinSep "\n"
    ("🧴 Dermatologues avec RDV ≤ 14 jours (Toulouse):" ::
      items.map fun it =>
        "• " ++ it.name ++ " — " ++ pyCapitalize (weekdayAbbrev it.date ++ " " ++ pad2 it.date.day ++ "/" ++ pad2 it.date.month) ++ " " ++
          (if pad2 it.date.hour ++ pad2 it.date.minute = "0000" then ""
           else "à " ++ pad2 it.date.hour ++ "h") ++
          "\n  " ++ it.url)

/-- `fmt` of src/app.py (lines 116-125): the fixed no-availability sentence
for an empty list; otherwise sort by date and emit a header plus one bullet
line per record. -/
def fmt_app (items : List AppItem) : String :=
  if items = [] then "Aucune disponibilité trouvée sur Doctolib ou Maiia."
  else
    joinSep "\n"
      ("👶 Pneumologues pédiatriques disponibles (Toulouse):" ::
        (List.insertionSort appItemLe items).map fun it =>
          "• [" ++ it.source ++ "] " ++ it.name ++ " — " ++ pyCapitalize (weekdayAbbrev it.date ++ " " ++ pad2 it.date.day ++ "/" ++ pad2 it.date.month) ++
            (if pad2 it.date.hour ++ pad2 it.date.minute = "0000" then ""
             else " à " ++ pad2 it.date.hour ++ "h") ++
            "\n  " ++ it.url)

/-- The effect of one run of src/ap.py's `main` (lines 154-172) on its two
externally visible channels: the Telegram message sent (if any) and the
snapshot written by `save_state` (if any). -/
structure MainResult where
  sent : Option String
  saved : Option (List CKey)
deriving DecidableEq, Repr

/-- src/ap.py `main`, lines 159-172, as a function of the freshly fetched
items, the `items` list of the loaded state, and the
`NOTIFY_WHEN_EMPTY == "1"` flag. -/
def ap_main (items : List ApItem) (stateItems : List CKey) (notifyWhenEmpty : Bool) :
    MainResult :=
  let old := stateItems
  let nw := canonicalize items
  let d := compute_diff old nw
  if old = [] ∧ nw = [] ∧ notifyWhenEmpty = true then
    ⟨some "Aucune dispo détectée pour les 14 prochains jours.", none⟩
  else if d.1 ≠ ∅ ∨ d.2 ≠ ∅ then
    ⟨some (if items ≠ [] then fmt_ap items else "Plus de disponibilité ≤ 14 jours pour le moment."),
     some nw⟩
  else
    ⟨none, none⟩

theorem listLt_irrefl (l : List Char) : listLt l l = false := by
  induction l with
  | nil => rfl
  | cons a t ih => simp [listLt, ih]

theorem listLt_trans :
    ∀ {a b c : List Char}, listLt a b = true → listLt b c = true → listLt a c = true := by
  intro a
  induction a with
  | nil =>
    intro b c hab hbc
    cases b with
    | nil => cases hab
    | cons y t =>
      cases c with
      | nil => cases hbc
      | cons z u => rfl
  | cons x s ih =>
    intro b c hab hbc
    cases b with
    | nil => cases hab
    | cons y t =>
      cases c with
      | nil => cases hbc
      | cons z u =>
        simp only [listLt, Bool.or_eq_true, Bool.and_eq_true, decide_eq_true_eq] at hab hbc ⊢
        rcases hab with h1 | ⟨hxy, h1⟩
        · rcases hbc with h2 | ⟨hyz, h2⟩
          · exact Or.inl (Nat.lt_trans h1 h2)
          · exact Or.inl (hyz ▸ h1)
        · rcases hbc with h2 | ⟨hyz, h2⟩
          · rw [← hxy] at h2
            exact Or.inl h2
          · exact Or.inr ⟨hxy.trans hyz, ih h1 h2⟩

theorem listLt_connex :
    ∀ {a b : List Char}, listLt a b = false → listLt b a = false → a = b := by
  intro a
  induction a with
  | nil =>
    intro b hab _
    cases b with
    | nil => rfl
    | cons y t => cases hab
  | cons x s ih =>
    intro b hab hba
    cases b with
    | nil => cases hba
    | cons y t =>
      simp only [listLt, Bool.or_eq_false_iff, Bool.and_eq_false_iff, decide_eq_false_iff_not] at hab hba
      have hxy : x = y := by
        have h1 := hab.1
        have h2 := hba.1
        have := Char.le_antisymm (Nat.le_of_not_lt h2) (Nat.le_of_not_lt h1)
        exact this
      subst hxy
      rcases hab.2 with h | h
      · simp at h
      · rcases hba.2 with h2 | h2
        · simp at h2
        · rw [ih h h2]

theorem strLt_trans {a b c : String} (h1 : strLt a b) (h2 : strLt b c) : strLt a c :=
  listLt_trans h1 h2

theorem strLt_connex {a b : String} (h1 : ¬ strLt a b) (h2 : ¬ strLt b a) : a = b := by
  have := listLt_connex (Bool.eq_false_iff.mpr h1) (Bool.eq_false_iff.mpr h2)
  cases a with
  | mk da =>
    cases b with
    | mk db =>
      simp only [String.toList] at this
      exact congrArg String.mk this

theorem strLt_irrefl (a : String) : ¬ strLt a a := by
  simp [strLt, listLt_irrefl]

theorem strLt_asymm {a b : String} (h : strLt a b) : ¬ strLt b a := by
  intro h2
  exact strLt_irrefl a (strLt_trans h h2)

instance : IsTrans CKey ckeyLe := by
  constructor
  intro a b c hab hbc
  rcases hab with h1 | ⟨e1, h1⟩
  · rcases hbc with h2 | ⟨e2, h2⟩
    · exact Or.inl (strLt_trans h1 h2)
    · exact Or.inl (e2 ▸ h1)
  · rcases hbc with h2 | ⟨e2, h2⟩
    · exact Or.inl (e1 ▸ h2)
    · refine Or.inr ⟨e1.trans e2, ?_⟩
      rcases h1 with h1 | ⟨f1, h1⟩
      · rcases h2 with h2 | ⟨f2, h2⟩
        · exact Or.inl (strLt_trans h1 h2)
        · exact Or.inl (f2 ▸ h1)
      · rcases h2 with h2 | ⟨f2, h2⟩
        · exact Or.inl (f1 ▸ h2)
        · refine Or.inr ⟨f1.trans f2, ?_⟩
          rcases h1 with h1 | e
          · rcases h2 with h2 | e2
            · exact Or.inl (strLt_trans h1 h2)
            · exact Or.inl (e2 ▸ h1)
          · exact e ▸ h2

instance : IsTotal CKey ckeyLe := by
  constructor
  intro a b
  by_cases hd : strLt a.day b.day
  · exact Or.inl (Or.inl hd)
  · by_cases hd2 : strLt b.day a.day
    · exact Or.inr (Or.inl hd2)
    · have ed : a.day = b.day := strLt_connex hd hd2
      by_cases hn : strLt a.name b.name
      · exact Or.inl (Or.inr ⟨ed, Or.inl hn⟩)
      · by_cases hn2 : strLt b.name a.name
        · exact Or.inr (Or.inr ⟨ed.symm, Or.inl hn2⟩)
        · have en : a.name = b.name := strLt_connex hn hn2
          by_cases hu : strLt a.url b.url
          · exact Or.inl (Or.inr ⟨ed, Or.inr ⟨en, Or.inl hu⟩⟩)
          · by_cases hu2 : strLt b.url a.url
            · exact Or.inr (Or.inr ⟨ed.symm, Or.inr ⟨en.symm, Or.inl hu2⟩⟩)
            · exact Or.inl (Or.inr ⟨ed, Or.inr ⟨en, Or.inr (strLt_connex hu hu2)⟩⟩)

instance : IsAntisymm CKey ckeyLe := by
  constructor
  intro a b hab hba
  have ed : a.day = b.day := by
    rcases hab with h1 | ⟨e1, _⟩
    · rcases hba with h2 | ⟨e2, _⟩
      · exact absurd h2 (strLt_asymm h1)
      · exact e2.symm
    · exact e1
  have en : a.name = b.name := by
    rcases hab with h1 | ⟨e1, h1⟩
    · exact absurd (ed ▸ h1) (strLt_irrefl b.day)
    · rcases hba with h2 | ⟨e2, h2⟩
      · exact absurd (ed ▸ h2) (strLt_irrefl b.day)
      · rcases h1 with h1 | ⟨f1, _⟩
        · rcases h2 with h2 | ⟨f2, _⟩
          · exact absurd h2 (strLt_asymm h1)
          · exact f2.symm
        · exact f1
  have eu : a.url = b.url := by
    rcases hab with h1 | ⟨e1, h1⟩
    · exact absurd (ed ▸ h1) (strLt_irrefl b.day)
    · rcases hba with h2 | ⟨e2, h2⟩
      · exact absurd (ed ▸ h2) (strLt_irrefl b.day)
      · rcases h1 with h1 | ⟨f1, h1⟩
        · exact absurd (en ▸ h1) (strLt_irrefl b.name)
        · rcases h2 with h2 | ⟨f2, h2⟩
          · exact absurd (en ▸ h2) (strLt_irrefl b.name)
          · rcases h1 with h1 | e
            · rcases h2 with h2 | e2
              · exact absurd h2 (strLt_asymm h1)
              · exact e2.symm
            · exact e
  cases a
  cases b
  simp_all

/-! ## Claims -/

/-- C9: For every snapshot S, `compute_diff S S` returns an empty added set
and an empty removed set. -/
theorem C9_diff_self_empty (S : List CKey) : compute_diff S S = (∅, ∅) := by
  simp [compute_diff]

/-- C10: For all snapshots A and B, the diff is well-formed and antisymmetric:
`(compute_diff A B).added = (compute_diff B A).removed`, the added set is a
subset of B's keys, the removed set is a subset of A's keys, and the added and
removed sets are disjoint. -/
theorem C10_diff_wellformed (A B : List CKey) :
    (compute_diff A B).1 = (compute_diff B A).2
    ∧ (compute_diff A B).1 ⊆ (B.map keyTuple).toFinset
    ∧ (compute_diff A B).2 ⊆ (A.map keyTuple).toFinset
    ∧ Disjoint (compute_diff A B).1 (compute_diff A B).2 := by
  refine ⟨rfl, Finset.sdiff_subset, Finset.sdiff_subset, ?_⟩
  exact disjoint_sdiff_sdiff

/-- C1: In a run of ap.py's `main` where the diff between the persisted
snapshot and the canonicalized current extraction is empty, and it is not the
case that both snapshots are empty with the notify-when-empty flag set, no
notification is sent and no snapshot is persisted. -/
theorem C1_no_change_no_effect (items : List ApItem) (old : List CKey) (flag : Bool)
    (hdiff : compute_diff old (canonicalize items) = (∅, ∅))
    (hne : ¬ (old = [] ∧ canonicalize items = [] ∧ flag = true)) :
    ap_main items old flag = ⟨none, none⟩ := by
  unfold ap_main
  rw [if_neg hne, hdiff]
  simp

/-- Witness for C1 at a concrete input: an empty fetch against an empty
persisted snapshot with the flag unset. -/
theorem C1_no_change_no_effect_witness :
    ap_main [] [] false = ⟨none, none⟩ :=
  C1_no_change_no_effect [] [] false (by decide) (by decide)

/-- C2 (code bug): on the day-plus-month text "Prochain RDV le 3 janvier"
with reference now 2025-02-20 12:00, both parsers return January 3rd of the
*current* year — a timestamp in the past — where the spec requires
forward-looking year inference (2026-01-03). This is the "January 1 default"
slip the spec's §9 flags. -/
theorem C2_year_inference_returns_past_date :
    parse_date_fr_ap "Prochain RDV le 3 janvier" ⟨2025, 2, 20, 12, 0, 0⟩
      = Except.ok (some ⟨2025, 1, 3, 12, 0, 0⟩)
    ∧ parse_date_fr_app "Prochain RDV le 3 janvier" ⟨2025, 2, 20, 12, 0, 0⟩
      = Except.ok (some ⟨2025, 1, 3, 0, 0, 0⟩)
    ∧ PyDateTime.lin ⟨2025, 1, 3, 12, 0, 0⟩ < PyDateTime.lin ⟨2025, 2, 20, 12, 0, 0⟩
    ∧ PyDateTime.lin ⟨2025, 1, 3, 0, 0, 0⟩ < PyDateTime.lin ⟨2025, 2, 20, 12, 0, 0⟩ := by
  refine ⟨by decide, by decide, by decide, by decide⟩

/-- C5 counterexample: ap.py's `fmt` applied to the empty list returns the
bare header line with no entries — not a "no availability" sentence (app.py's
`fmt` does return one, and the two disagree, so the claimed behaviour does
not hold in every source variant). -/
theorem C5_cex_ap_fmt_empty_is_bare_header :
    fmt_ap [] = "🧴 Dermatologues avec RDV ≤ 14 jours (Toulouse):"
    ∧ fmt_app [] = "Aucune disponibilité trouvée sur Doctolib ou Maiia."
    ∧ fmt_ap [] ≠ fmt_app [] := by
  refine ⟨by decide, by decide, by decide⟩

/-- C5 amended: app.py's `fmt` returns the fixed no-availability sentence for
empty input; ap.py's `fmt` returns the bare header line, and in ap.py the
fixed no-availability sentence is supplied by `main` (not `fmt`) when a
notification is due with an empty item list. -/
theorem C5_empty_format_per_variant :
    fmt_app [] = "Aucune disponibilité trouvée sur Doctolib ou Maiia."
    ∧ fmt_ap [] = "🧴 Dermatologues avec RDV ≤ 14 jours (Toulouse):"
    ∧ ap_main [] [⟨"Dr. Dupont", "/x", "2025-03-05"⟩] false
      = ⟨some "Plus de disponibilité ≤ 14 jours pour le moment.", some []⟩ := by
  refine ⟨by decide, by decide, by decide⟩

/-- C3 counterexample: two records sharing name, url and day but differing in
time-of-day canonicalize to a list with duplicate keys — `canonicalize` does
not deduplicate. -/
theorem C3_cex_canonicalize_keeps_duplicates :
    canonicalize [⟨"a", ⟨2025, 3, 5, 10, 0, 0⟩, "u"⟩, ⟨"a", ⟨2025, 3, 5, 12, 0, 0⟩, "u"⟩]
      = [⟨"a", "u", "2025-03-05"⟩, ⟨"a", "u", "2025-03-05"⟩]
    ∧ ¬ (canonicalize [⟨"a", ⟨2025, 3, 5, 10, 0, 0⟩, "u"⟩,
          ⟨"a", ⟨2025, 3, 5, 12, 0, 0⟩, "u"⟩]).Nodup := by
  refine ⟨by decide, by decide⟩

/-- C3 amended: `canonicalize` returns exactly one key `(name, url, day)` per
input record (day being the region-local calendar date of its timestamp),
sorted by `(day, name, url)`, and any permutation of the same records yields
the identical output list — but duplicates are *not* removed. -/
theorem C3_canonicalize_sorted_and_perm_invariant (l1 l2 : List ApItem) (h : l1.Perm l2) :
    List.Sorted ckeyLe (canonicalize l1)
    ∧ (canonicalize l1).Perm (l1.map fun it => ⟨it.name, it.url, formatDay it.date⟩)
    ∧ canonicalize l1 = canonicalize l2 := by
  refine ⟨List.sorted_insertionSort ckeyLe _, List.perm_insertionSort ckeyLe _, ?_⟩
  have p1 := List.perm_insertionSort ckeyLe (l1.map fun it => ⟨it.name, it.url, formatDay it.date⟩)
  have p2 := List.perm_insertionSort ckeyLe (l2.map fun it => ⟨it.name, it.url, formatDay it.date⟩)
  have hmap : (l1.map fun it => CKey.mk it.name it.url (formatDay it.date)).Perm
      (l2.map fun it => CKey.mk it.name it.url (formatDay it.date)) := h.map _
  exact List.eq_of_perm_of_sorted (p1.trans (hmap.trans p2.symm))
    (List.sorted_insertionSort ckeyLe _) (List.sorted_insertionSort ckeyLe _)

/-- Witness for C3's amended theorem at a concrete permuted pair. -/
theorem C3_canonicalize_sorted_and_perm_invariant_witness :
    canonicalize [⟨"b", ⟨2025, 3, 6, 0, 0, 0⟩, "u"⟩, ⟨"a", ⟨2025, 3, 5, 0, 0, 0⟩, "v"⟩]
      = canonicalize [⟨"a", ⟨2025, 3, 5, 0, 0, 0⟩, "v"⟩, ⟨"b", ⟨2025, 3, 6, 0, 0, 0⟩, "u"⟩] :=
  (C3_canonicalize_sorted_and_perm_invariant
    [⟨"b", ⟨2025, 3, 6, 0, 0, 0⟩, "u"⟩, ⟨"a", ⟨2025, 3, 5, 0, 0, 0⟩, "v"⟩]
    [⟨"a", ⟨2025, 3, 5, 0, 0, 0⟩, "v"⟩, ⟨"b", ⟨2025, 3, 6, 0, 0, 0⟩, "u"⟩] (by decide)).2.2

/-- C6 counterexample: app.py's extractors do produce records from cards with
an empty display text — here a card with empty name and relative href yields a
record with an empty provider name from both `fetch_doctolib` and
`fetch_maiia` (ap.py's extractor would have skipped it). -/
theorem C6_cex_app_keeps_empty_name_cards :
    fetch_doctolib 14 ⟨2025, 2, 20, 12, 0, 0⟩ [⟨"", some "/x", "3 mars 2025"⟩]
      = [⟨"Doctolib", "", ⟨2025, 3, 3, 0, 0, 0⟩, "https://www.doctolib.fr/x"⟩]
    ∧ fetch_maiia 14 ⟨2025, 2, 20, 12, 0, 0⟩ [⟨"", some "/y", "5 mars 2025"⟩]
      = [⟨"Maiia", "", ⟨2025, 3, 5, 0, 0, 0⟩, "https://www.maiia.com/y"⟩] := by
  refine ⟨by decide, by decide⟩

/-- C6 amended: only ap.py's extractor skips a card whose stripped display
text or defaulted href is empty — such a card contributes nothing to its
output (app.py's two extractors lack this check, see the counterexample). -/
theorem C6_ap_skips_empty_cards (now : PyDateTime) (c : RawCard) (cards : List RawCard)
    (h : String.mk (pyStrip c.nameText.toList) = "" ∨ c.href.getD "" = "") :
    (∀ seen, fetchGo (apCardKeep now) apKey (c :: cards) seen
        = fetchGo (apCardKeep now) apKey cards seen)
    ∧ fetch_derm_in_14_days now (c :: cards) = fetch_derm_in_14_days now cards := by
  have hk : apCardKeep now c = none := by
    simp only [apCardKeep]
    rw [if_pos h]
  have hgo : ∀ seen, fetchGo (apCardKeep now) apKey (c :: cards) seen
      = fetchGo (apCardKeep now) apKey cards seen := by
    intro seen
    simp [fetchGo, hk]
  exact ⟨hgo, by unfold fetch_derm_in_14_days; rw [hgo]⟩

/-- Witness for C6's amended theorem: a whitespace-only display name card is
dropped by ap.py's extractor. -/
theorem C6_ap_skips_empty_cards_witness :
    fetch_derm_in_14_days ⟨2025, 2, 20, 12, 0, 0⟩
        [⟨"  ", some "/x", "Prochain RDV le 5 mars 2025"⟩,
         ⟨"Dr Dupont", some "/x", "Prochain RDV le 5 mars 2025"⟩]
      = fetch_derm_in_14_days ⟨2025, 2, 20, 12, 0, 0⟩
        [⟨"Dr Dupont", some "/x", "Prochain RDV le 5 mars 2025"⟩] :=
  (C6_ap_skips_empty_cards ⟨2025, 2, 20, 12, 0, 0⟩
    ⟨"  ", some "/x", "Prochain RDV le 5 mars 2025"⟩
    [⟨"Dr Dupont", some "/x", "Prochain RDV le 5 mars 2025"⟩] (by decide)).2

/-- Each extraction loop is the spec's "first occurrence wins" deduplication
of the records surviving its per-card filters. -/
theorem fetchGo_eq_dedup {α : Type} (keep : RawCard → Option α) (key : α → String × String) :
    ∀ (cards : List RawCard) (seen : Finset (String × String)),
      fetchGo keep key cards seen = dedupByKeyFirst key (cards.filterMap keep) seen := by
  intro cards
  induction cards with
  | nil => intro seen; rfl
  | cons c cs ih =>
    intro seen
    cases hk : keep c with
    | none => simp [fetchGo, hk, List.filterMap_cons, ih]
    | some it =>
      by_cases hm : key it ∈ seen <;>
        simp [fetchGo, hk, List.filterMap_cons, dedupByKeyFirst, hm, ih]

/-- First-wins deduplication yields pairwise-distinct keys, none of them in
the starting `seen` set. -/
theorem dedup_map_key_nodup {α : Type} (key : α → String × String) :
    ∀ (l : List α) (seen : Finset (String × String)),
      ((dedupByKeyFirst key l seen).map key).Nodup
      ∧ ∀ x ∈ dedupByKeyFirst key l seen, key x ∉ seen := by
  intro l
  induction l with
  | nil => intro seen; exact ⟨List.nodup_nil, by simp [dedupByKeyFirst]⟩
  | cons x t ih =>
    intro seen
    by_cases hm : key x ∈ seen
    · simpa [dedupByKeyFirst, hm] using ih seen
    · have h2 := ih (insert (key x) seen)
      refine ⟨?_, ?_⟩
      · simp only [dedupByKeyFirst, if_neg hm, List.map_cons, List.nodup_cons]
        refine ⟨?_, h2.1⟩
        intro hmem
        rcases List.mem_map.mp hmem with ⟨y, hy, hkey⟩
        exact (h2.2 y hy) (hkey ▸ Finset.mem_insert_self (key x) seen)
      · intro z hz
        simp only [dedupByKeyFirst, if_neg hm, List.mem_cons] at hz
        rcases hz with rfl | hz
        · exact hm
        · intro hzs
          exact (h2.2 z hz) (Finset.mem_insert_of_mem hzs)

/-- C8: within one extraction pass, the output is exactly the first-wins
`(name, url)` deduplication of the records surviving the per-card filters —
later cards with an already-seen key are discarded entirely — and the final
output (after ap.py's date sort) carries pairwise-distinct keys. Stated for
ap.py's extractor and both of app.py's. -/
theorem C8_extraction_dedup_first_wins (now : PyDateTime) (window : Nat)
    (cards : List RawCard) :
    fetchGo (apCardKeep now) apKey cards ∅
      = dedupByKeyFirst apKey (cards.filterMap (apCardKeep now)) ∅
    ∧ ((fetch_derm_in_14_days now cards).map apKey).Nodup
    ∧ fetch_doctolib window now cards
      = dedupByKeyFirst appKey
          (cards.filterMap (appCardKeep "Doctolib" "https://www.doctolib.fr" window now)) ∅
    ∧ ((fetch_doctolib window now cards).map appKey).Nodup
    ∧ fetch_maiia window now cards
      = dedupByKeyFirst appKey
          (cards.filterMap (appCardKeep "Maiia" "https://www.maiia.com" window now)) ∅
    ∧ ((fetch_maiia window now cards).map appKey).Nodup := by
  refine ⟨fetchGo_eq_dedup _ _ cards ∅, ?_, fetchGo_eq_dedup _ _ cards ∅, ?_,
    fetchGo_eq_dedup _ _ cards ∅, ?_⟩
  · have hperm : (fetch_derm_in_14_days now cards).Perm (fetchGo (apCardKeep now) apKey cards ∅) :=
      List.perm_insertionSort apItemLe _
    rw [(hperm.map apKey).nodup_iff, fetchGo_eq_dedup]
    exact (dedup_map_key_nodup apKey _ ∅).1
  · rw [fetch_doctolib, fetchGo_eq_dedup]
    exact (dedup_map_key_nodup appKey _ ∅).1
  · rw [fetch_maiia, fetchGo_eq_dedup]
    exact (dedup_map_key_nodup appKey _ ∅).1

/-- Every match produced by a prefix+group pattern carries a capture group. -/
theorem patAt_group1_isSome (pre grp : ReM) :
    ∀ (cs : List Char) (m : ReMatch), patAt pre grp cs = some m → m.group1.isSome = true := by
  intro cs m h
  unfold patAt at h
  rcases Option.bind_eq_some.mp h with ⟨pr, _, h2⟩
  rcases Option.map_eq_some'.mp h2 with ⟨g, _, rfl⟩
  rfl

/-- A property of matches is preserved by `re.search`. -/
theorem reSearch_prop (P : ReMatch → Prop) (p : List Char → Option ReMatch)
    (hp : ∀ cs m, p cs = some m → P m) :
    ∀ cs m, reSearch p cs = some m → P m := by
  intro cs
  induction cs with
  | nil => intro m h; exact hp [] m h
  | cons c t ih =>
    intro m h
    unfold reSearch at h
    cases hc : p (c :: t) with
    | some m2 =>
      rw [hc] at h
      cases h
      exact hp _ _ hc
    | none =>
      rw [hc] at h
      exact ih m h

/-- One ap.py pattern iteration cannot raise when the pattern has a capture
group and the continuation cannot raise. -/
theorem apTryPat_isOk (patAtF : List Char → Option ReMatch) (lower : List Char)
    (dflt : PyDateTime) (k : Except PyErr (Option PyDateTime))
    (hg : ∀ cs m, patAtF cs = some m → m.group1.isSome = true)
    (hk : k.isOk = true) : (apTryPat patAtF lower dflt k).isOk = true := by
  unfold apTryPat
  cases hs : reSearch patAtF lower with
  | none => exact hk
  | some m =>
    have hm : m.group1.isSome = true :=
      reSearch_prop (fun m => m.group1.isSome = true) patAtF hg lower m hs
    cases hg1 : m.group1 with
    | none => rw [hg1] at hm; cases hm
    | some g =>
      simp only [getGroup1, hg1]
      cases dpParse (fr_to_en_list monthsFrAp (pyStrip g)) dflt with
      | none => exact hk
      | some dt => rfl

/-- One app.py numeric-pattern iteration cannot raise when the pattern has a
capture group and the continuation cannot raise. -/
theorem appTryPat_isOk (patAtF : List Char → Option ReMatch) (lower : List Char)
    (now : PyDateTime) (k : Except PyErr (Option PyDateTime))
    (hg : ∀ cs m, patAtF cs = some m → m.group1.isSome = true)
    (hk : k.isOk = true) : (appTryPat patAtF lower now k).isOk = true := by
  unfold appTryPat
  cases hs : reSearch patAtF lower with
  | none => exact hk
  | some m =>
    have hm : m.group1.isSome = true :=
      reSearch_prop (fun m => m.group1.isSome = true) patAtF hg lower m hs
    cases hg1 : m.group1 with
    | none => rw [hg1] at hm; cases hm
    | some g =>
      simp only [getGroup1, hg1]
      cases dpParse (fr_to_en_list monthsFrApp g) (appDefault now) with
      | none => exact hk
      | some dt => rfl

/-- A successful search for a group-less literal pattern means the literal
occurs as a substring. -/
theorem reSearch_litPat_contains (l : List Char) :
    ∀ cs m, reSearch (litPatAt l) cs = some m → containsSub l cs = true := by
  intro cs
  induction cs with
  | nil =>
    intro m h
    unfold reSearch litPatAt mLit at h
    by_cases hp : l.isPrefixOf []
    · simpa [containsSub] using hp
    · rw [if_neg hp] at h
      simp at h
  | cons c t ih =>
    intro m h
    unfold reSearch at h
    cases hc : litPatAt l (c :: t) with
    | some m2 =>
      have hp : l.isPrefixOf (c :: t) = true := by
        unfold litPatAt mLit at hc
        by_cases hp : l.isPrefixOf (c :: t)
        · exact hp
        · rw [if_neg hp] at hc
          simp at hc
      simp [containsSub, hp]
    | none =>
      rw [hc] at h
      simp [containsSub, ih m h]

/-- The substring test is monotone along prefixes of the needle. -/
theorem containsSub_mono (n1 n2 : List Char) (hpre : n1 <+: n2) :
    ∀ cs, containsSub n2 cs = true → containsSub n1 cs = true := by
  intro cs
  induction cs with
  | nil =>
    intro h
    simp only [containsSub] at *
    exact List.isPrefixOf_iff_prefix.mpr (hpre.trans (List.isPrefixOf_iff_prefix.mp h))
  | cons c t ih =>
    intro h
    simp only [containsSub, Bool.or_eq_true] at h ⊢
    rcases h with h | h
    · exact Or.inl (List.isPrefixOf_iff_prefix.mpr (hpre.trans (List.isPrefixOf_iff_prefix.mp h)))
    · exact Or.inr (ih h)

/-- An app.py keyword iteration cannot raise when its guard substring is a
prefix of its literal *and* the lowered and folded views of the text
coincide: then a match of the group-less literal in the folded text forces
the guard to have matched the lowered text first. (When the two views differ
the raising path is reachable — see C7's counterexample.) -/
theorem appKeywordIter_isOk (guard lit : List Char) (hpre : guard <+: lit)
    (result : PyDateTime) (lowered folded : List Char) (heq : lowered = folded)
    (now : PyDateTime) (k : Except PyErr (Option PyDateTime)) (hk : k.isOk = true) :
    (appKeywordIter guard lit result lowered folded now k).isOk = true := by
  subst heq
  unfold appKeywordIter
  by_cases hg : containsSub guard lowered = true
  · rw [if_pos hg]
    rfl
  · rw [if_neg hg]
    cases hs : reSearch (litPatAt lit) lowered with
    | none => exact hk
    | some m =>
      exact absurd
        (containsSub_mono guard lit hpre lowered (reSearch_litPat_contains lit lowered m hs)) hg

/-- On a text all of whose characters lowercase to exactly their re-fold,
`str.lower()` and the `re.IGNORECASE` fold give the same view. -/
theorem pyLower_eq_reFoldText (cs : List Char)
    (h : ∀ c ∈ cs, pyLowerChar c = [reFold c]) : pyLower cs = reFoldText cs := by
  induction cs with
  | nil => rfl
  | cons c t ih =>
    have hc : pyLowerChar c = [reFold c] := h c (List.mem_cons_self c t)
    have ht : pyLower t = reFoldText t := ih fun x hx => h x (List.mem_cons_of_mem c hx)
    simp only [pyLower, List.flatMap_cons, reFoldText, List.map_cons] at *
    rw [hc, ht]
    rfl

/-- C7 counterexample: on the text "demaın" (with dotless ı, U+0131) app.py's
`parse_date_fr` raises `IndexError`: `re.IGNORECASE` matches ı against the
`i` of the group-less literal `r"demain"`, while `"demain" in text.lower()`
is false (`str.lower` keeps ı), so the guard does not preempt the search and
line 42's `m.group(1)` executes on a match with no capture group. -/
theorem C7_cex_app_parser_raises_on_dotless_i :
    parse_date_fr_app "demaın" ⟨2025, 2, 20, 12, 0, 0⟩ = Except.error PyErr.indexError
    ∧ containsSub demainLit (pyLower "demaın".toList) = false
    ∧ (reSearch (litPatAt demainLit) (reFoldText "demaın".toList)).isSome = true := by
  refine ⟨by decide, by decide, by decide⟩

/-- C7 amended: ap.py's parser never propagates an exception for any input
(all of its patterns carry a capture group); app.py's parser never propagates
an exception on any text whose characters all case-fold under
`re.IGNORECASE` exactly as under `str.lower` — in particular on all
ASCII/Latin-1 text — because there the substring guards provably preempt the
group-less keyword searches. (On text where the two foldings differ, such as
dotless ı, app.py's parser can raise `IndexError` — see the
counterexample.) -/
theorem C7_parsers_never_raise_on_fold_agreeing_text (text : String) (now : PyDateTime) :
    (parse_date_fr_ap text now).isOk = true
    ∧ ((∀ c ∈ text.toList, pyLowerChar c = [reFold c]) →
        (parse_date_fr_app text now).isOk = true) := by
  constructor
  · unfold parse_date_fr_ap
    apply apTryPat_isOk _ _ _ _ (patAt_group1_isSome _ _)
    apply apTryPat_isOk _ _ _ _ (patAt_group1_isSome _ _)
    apply apTryPat_isOk _ _ _ _ (patAt_group1_isSome _ _)
    unfold apKeywords
    split_ifs <;> rfl
  · intro hsafe
    have heq : pyLower text.toList = reFoldText text.toList := pyLower_eq_reFoldText _ hsafe
    unfold parse_date_fr_app
    apply appTryPat_isOk _ _ _ _ (patAt_group1_isSome _ _)
    apply appTryPat_isOk _ _ _ _ (patAt_group1_isSome _ _)
    apply appKeywordIter_isOk _ _ (List.isPrefixOf_iff_prefix.mp (by decide)) _ _ _ heq _ _
    apply appKeywordIter_isOk _ _ (List.isPrefixOf_iff_prefix.mp (by decide)) _ _ _ heq _ _
    rfl

/-- Witness for C7's amended theorem at a concrete ASCII input. -/
theorem C7_parsers_never_raise_on_fold_agreeing_text_witness :
    (parse_date_fr_ap "Prochain RDV demain" ⟨2025, 2, 20, 12, 0, 0⟩).isOk = true
    ∧ (parse_date_fr_app "Prochain RDV demain" ⟨2025, 2, 20, 12, 0, 0⟩).isOk = true :=
  ⟨(C7_parsers_never_raise_on_fold_agreeing_text "Prochain RDV demain" ⟨2025, 2, 20, 12, 0, 0⟩).1,
   (C7_parsers_never_raise_on_fold_agreeing_text "Prochain RDV demain" ⟨2025, 2, 20, 12, 0, 0⟩).2
     (by decide)⟩

